import Mathlib

/-!
Verification development for the ContentManagementAgentsTS repository.

The TypeScript sources are shallowly embedded as Lean definitions:
* `src/src/utils/helpers.ts` and the agent classes (`PublisherAgent`,
  `HTMLPublisherAgent`, `SEOAgent`, …) become pure string functions;
* `src/src/workflows/enhancedWorkflow.ts` (`EnhancedContentWorkflow.run`
  and `runBatch`) becomes `runE` / `run` / `runBatch`, parameterised by an
  `Oracle` that supplies the remote chat-completion responses (one field
  per prompt/agent) — the remote LLM is the only non-deterministic input;
* `src/src/lambda/workflow.ts` (the API-Gateway branch of `handler` and
  `runWorkflowAsync`) becomes `handleApiGateway` / `jobLifecycleWrites`,
  with the S3 job store modelled as a key-indexed map and each
  `PutObjectCommand` as an explicit (key, record) write.

JavaScript string primitives (`trim`, `split(/\s+/)`, `replace`,
`indexOf`, `toLowerCase` on ASCII) are embedded as executable functions on
`List Char`.
-/

/-! ## JavaScript string primitives -/

/-- JS `String.prototype.trim` on the character list: strip leading and
trailing whitespace. -/
def trimChars (l : List Char) : List Char :=
  ((l.dropWhile Char.isWhitespace).reverse.dropWhile Char.isWhitespace).reverse

/-- JS `s.trim()`. -/
def jsTrim (s : String) : String :=
  ⟨trimChars s.data⟩

/-- Characters kept by the slug regex `[^a-z0-9]+`: lowercase ASCII
letters and digits. -/
def isSlugChar (c : Char) : Bool :=
  (97 ≤ c.toNat && c.toNat ≤ 122) || (48 ≤ c.toNat && c.toNat ≤ 57)

/-- JS `\w` character class (plus `-`), as used by the route pattern
for status lookups. -/
def isWordDashChar (c : Char) : Bool :=
  isSlugChar c.toLower || c == '_' || c == '-'

/-- `text.replace(/[^a-z0-9]+/g, '-')`: each maximal run of characters
outside `[a-z0-9]` collapses to a single hyphen.  The boolean flag records
whether we are inside such a run. -/
def collapseRuns : Bool → List Char → List Char
  | _, [] => []
  | inRun, c :: rest =>
    if isSlugChar c then c :: collapseRuns false rest
    else if inRun then collapseRuns true rest
    else '-' :: collapseRuns true rest

/-- `text.replace(/^-+|-+$/g, '')`: drop the leading and the trailing run
of hyphens. -/
def dropEdgeHyphens (l : List Char) : List Char :=
  (((l.dropWhile (· == '-')).reverse).dropWhile (· == '-')).reverse

/-- `createSlug` from `src/src/utils/helpers.ts` (the identical private
copy lives in `PublisherAgent.createSlug`, `src/unnamed/part_008`):
lowercase, collapse non-alphanumeric runs to `-`, strip edge hyphens.
`Char.toLower` matches JS `toLowerCase` on ASCII input. -/
def createSlug (text : String) : String :=
  ⟨dropEdgeHyphens (collapseRuns false (text.data.map Char.toLower))⟩

/-- Whether two consecutive hyphens occur (used to state the shape of
slugs). -/
def hasDoubleHyphen : List Char → Bool
  | [] => false
  | [_] => false
  | a :: b :: rest => (a == '-' && b == '-') || hasDoubleHyphen (b :: rest)

/-- Number of maximal whitespace runs in a character list (flag: currently
inside a run). -/
def countWsRuns : Bool → List Char → Nat
  | _, [] => 0
  | inRun, c :: rest =>
    if c.isWhitespace then
      (if inRun then 0 else 1) + countWsRuns true rest
    else countWsRuns false rest

/-- JS `content.split(/\s+/).length`: one field per whitespace run plus
one (JS keeps the leading/trailing empty fields, and `"".split` yields a
one-element array). -/
def wordCountJS (s : String) : Nat :=
  countWsRuns false s.data + 1

/-- `estimateReadingTime` (helpers.ts and `PublisherAgent`):
`Math.max(1, Math.round(wordCount / 200))`.  `Math.round (w / 200)` for a
natural `w` equals `(w + 100) / 200` in integer division. -/
def estimateReadingTime (content : String) : Nat :=
  max 1 ((wordCountJS content + 100) / 200)

/-- Index of the first occurrence of `pat` in `l` (JS `indexOf`), `none`
when absent. -/
def indexOfSub (pat : List Char) : List Char → Option Nat
  | [] => if pat.isPrefixOf ([] : List Char) then some 0 else none
  | c :: rest =>
    if pat.isPrefixOf (c :: rest) then some 0
    else (indexOfSub pat rest).map (· + 1)

/-- Split at every occurrence of one of `seps` (JS `split(/[,\n]/)`),
keeping empty fields; `acc` is the current field, reversed. -/
def splitAnyAux (seps : List Char) (acc : List Char) : List Char → List (List Char)
  | [] => [acc.reverse]
  | c :: rest =>
    if seps.contains c then acc.reverse :: splitAnyAux seps [] rest
    else splitAnyAux seps (c :: acc) rest

/-- Drop one leading newline if present (the `\n?` part of the fence
regexes). -/
def dropOptNewline : List Char → List Char
  | '\n' :: r => r
  | l => l

/-- Delete every occurrence of the pattern `tag` followed by an optional
newline (JS `replace(/tag\n?/g, '')`), scanning left to right.  The
fuel argument (instantiated with the list's length, which bounds the
number of scanning steps) makes the recursion structural; it is never
exhausted for a non-empty `tag`. -/
def removeFenceTag (tag : List Char) : Nat → List Char → List Char
  | _, [] => []
  | 0, l => l
  | fuel + 1, c :: rest =>
    if tag.isPrefixOf (c :: rest) then
      removeFenceTag tag fuel (dropOptNewline ((c :: rest).drop tag.length))
    else c :: removeFenceTag tag fuel rest

/-! ## Data model (`src/src/types`, as used by the agents) -/

/-- `ContentMetadata` as built by `PublisherAgent.publish`
(`src/unnamed/part_008`): title, slug, description, keywords, publication
timestamp, status, word count, reading time, author. -/
structure ContentMetadata where
  title : String
  slug : String
  metaDescription : String
  keywords : List String
  publishedDate : String
  status : String
  wordCount : Nat
  readingTime : Nat
  author : String
deriving Repr, DecidableEq

/-- `SEOOutput` (`SEOAgent.optimize`, `src/src/agents/seoAgent.ts`). -/
structure SEOOutput where
  optimizedContent : String
  metaDescription : String
  keywords : List String
  recommendations : String
  slug : String
  status : String
deriving Repr, DecidableEq

/-- `PublisherOutput` (`PublisherAgent.publish`). -/
structure PublisherOutput where
  formattedContent : String
  metadata : ContentMetadata
  status : String
deriving Repr, DecidableEq

/-- The metadata attached to HTML output: the content metadata spread plus
`format`, `hasEmbeddedCSS`, `isResponsive` (`HTMLPublisherAgent.publish`,
`src/unnamed/part_007`). -/
structure HTMLMetadata extends ContentMetadata where
  format : String
  hasEmbeddedCSS : Bool
  isResponsive : Bool
deriving Repr, DecidableEq

/-- `HTMLPublisherOutput` (`HTMLPublisherAgent`). -/
structure HTMLPublisherOutput where
  htmlContent : String
  filePath : String
  fileName : String
  metadata : HTMLMetadata
  status : String
deriving Repr, DecidableEq

/-- One `agent-progress` event as emitted by `emitProgress(agent, status,
output?, message?)` in `src/src/workflows/enhancedWorkflow.ts`. -/
structure ProgressEvent where
  agent : String
  status : String
  output : Option String
  message : Option String
deriving Repr, DecidableEq

/-! ## SEO agent (`src/src/agents/seoAgent.ts`) -/

/-- `SEOAgent.extractSection`: find `[sectionName]`, return the trimmed
text up to the next `[` (or to the end); the whole text when the marker is
absent. -/
def extractSection (text : String) (sectionName : String) : String :=
  let startMarker : List Char := '[' :: sectionName.data ++ [']']
  match indexOfSub startMarker text.data with
  | none => text
  | some startIndex =>
    let afterStart := text.data.drop (startIndex + startMarker.length)
    match indexOfSub ['['] afterStart with
    | none => ⟨trimChars afterStart⟩
    | some j => ⟨trimChars (afterStart.take j)⟩

/-- `SEOAgent.parseKeywords`: split on commas and newlines, trim, drop
empties, keep at most five. -/
def parseKeywords (keywordsText : String) : List String :=
  ((((splitAnyAux [',', '\n'] [] keywordsText.data).map
      (fun w => (⟨trimChars w⟩ : String))).filter
      (fun k => k.data.length > 0)).take 5)

/-- `SEOAgent.optimize` applied to the raw chat-completion response:
extract the five sections of the templated answer. -/
def seoParse (raw : String) : SEOOutput :=
  { optimizedContent := extractSection raw "OPTIMIZED CONTENT"
    metaDescription := extractSection raw "META DESCRIPTION"
    keywords := parseKeywords (extractSection raw "KEYWORDS")
    recommendations := extractSection raw "SEO RECOMMENDATIONS"
    slug := extractSection raw "SLUG"
    status := "seo_optimized" }

/-! ## Publisher agent (`src/unnamed/part_008`) -/

/-- `PublisherAgent.publish`, given the chat-completion response `resp`:
the formatted content is the response verbatim and the metadata is built
locally from the inputs (`now` stands for `new Date().toISOString()`). -/
def publisherPublish (now resp content topic metaDescription : String)
    (keywords : List String) (slug : String) : PublisherOutput :=
  { formattedContent := resp
    metadata :=
      { title := topic
        slug := if slug = "" then createSlug topic else slug
        metaDescription := metaDescription
        keywords := keywords
        publishedDate := now
        status := "published"
        wordCount := wordCountJS content
        readingTime := estimateReadingTime content
        author := "AI Content Team" }
    status := "ready_to_publish" }

/-! ## HTML publisher agent (`src/unnamed/part_007`) -/

/-- Strip markdown code fences from the LLM response:
`.replace(/```html\n?/g, '').replace(/```\n?/g, '').trim()`. -/
def cleanHtmlResponse (s : String) : String :=
  let afterHtmlFence := removeFenceTag "```html".data s.data.length s.data
  ⟨trimChars (removeFenceTag "```".data afterHtmlFence.length afterHtmlFence)⟩

/-- JS `includes`: whether `pat` occurs as a contiguous substring. -/
def containsSub (pat : List Char) (l : List Char) : Bool :=
  (indexOfSub pat l).isSome

/-- `htmlContent.toLowerCase().includes('<!doctype')`. -/
def containsDoctype (s : String) : Bool :=
  containsSub "<!doctype".data (s.data.map Char.toLower)

/-- The doctype guard of `HTMLPublisherAgent.publish` /
`publishWithoutSaving`: prepend `<!DOCTYPE html>\n` unless the text
already contains `<!doctype` case-insensitively.  (The source comment
says "Ensure the HTML starts with DOCTYPE".) -/
def ensureDoctype (s : String) : String :=
  if containsDoctype s then s else ⟨"<!DOCTYPE html>\n".data ++ s.data⟩

/-- The extended metadata returned with HTML output. -/
def mkHtmlMetadata (m : ContentMetadata) (htmlContent : String) : HTMLMetadata :=
  { m with
    format := "html"
    hasEmbeddedCSS := containsSub "<style>".data htmlContent.data
    isResponsive := containsSub "viewport".data (htmlContent.data.map Char.toLower) }

/-- `HTMLPublisherAgent.publish` given the chat-completion response:
clean fences, ensure a doctype, save to `outputDir/fileName`. -/
def htmlPublish (resp : String) (metadata : ContentMetadata)
    (outputDir : String) : HTMLPublisherOutput :=
  let htmlContent := ensureDoctype (cleanHtmlResponse resp)
  let fileName := metadata.slug ++ ".html"
  { htmlContent := htmlContent
    filePath := outputDir ++ "/" ++ fileName
    fileName := fileName
    metadata := mkHtmlMetadata metadata htmlContent
    status := "published" }

/-- `HTMLPublisherAgent.publishWithoutSaving`: same processing, empty
`filePath`. -/
def htmlPublishWithoutSaving (resp : String)
    (metadata : ContentMetadata) : HTMLPublisherOutput :=
  let htmlContent := ensureDoctype (cleanHtmlResponse resp)
  { htmlContent := htmlContent
    filePath := ""
    fileName := metadata.slug ++ ".html"
    metadata := mkHtmlMetadata metadata htmlContent
    status := "published" }

/-! ## The remote-API oracle and the orchestrator
(`src/src/workflows/enhancedWorkflow.ts`) -/

/-- The environment of one workflow run: one field per remote
chat-completion call (each agent's prompt), returning the response text or
the thrown error's message, plus the wall clock reading used for
`new Date().toISOString()`.  Arguments mirror the prompt variables each
agent sends. -/
structure Oracle where
  researchLLM : String → Except String String
  writerLLM : String → String → Nat → Except String String
  editorLLM : String → Except String String
  seoLLM : String → String → Except String String
  publisherLLM : String → String → String → String → Except String String
  htmlLLM : String → String → String → String → String → String → Except String String
  now : String

/-- A remote stage-agent invocation, recording which agent was called and
with which data. -/
inductive StageCall where
  | research (topic : String)
  | writer (topic research : String) (length : Nat)
  | editor (draft : String)
  | seo (content topic : String)
  | publisher (content topic metaDescription keywordsJoined : String)
  | html (content title metaDescription keywordsJoined author date : String)
deriving Repr, DecidableEq

/-- The options of `EnhancedContentWorkflow.run` with the source's
defaults. -/
structure RunOptions where
  publishHTML : Bool := true
  outputDir : String := "output"
  saveFiles : Bool := true
deriving Repr, DecidableEq

/-- The value resolved by `EnhancedContentWorkflow.run`. -/
structure RunResult where
  markdown : PublisherOutput
  html : Option HTMLPublisherOutput
deriving Repr, DecidableEq

/-- Everything one `run` produces: the resolved value (or the propagated
stage error), the final state of the progress emitter, and the ordered
list of remote stage calls issued. -/
structure RunOutcome (σ : Type) where
  result : Except String RunResult
  emitterState : σ
  calls : List StageCall
deriving Repr

/-- `EnhancedContentWorkflow.run`, line by line, parameterised by the
progress emitter (`emit` folds each `emitProgress` call into a state of
type `σ`, modelling `globalEmitter`).  A failed remote call propagates
(`Except.error`) exactly as the source lets a rejected promise abort the
method; `console.log` and file writes are the only elided effects. -/
def runE {σ : Type} (emit : σ → ProgressEvent → σ) (s0 : σ)
    (o : Oracle) (topic : String) (opts : RunOptions) : RunOutcome σ :=
  let s := emit s0 ⟨"research", "pending", none, some "🔍 Starting research phase..."⟩
  let s := emit s ⟨"research", "active", some "Analyzing topic and gathering information...", none⟩
  match o.researchLLM topic with
  | .error e => ⟨.error e, s, [.research topic]⟩
  | .ok researchOutput =>
    let s := emit s ⟨"research", "completed",
      some ("Research completed: " ++ toString researchOutput.length ++ " chars of data collected"), none⟩
    let s := emit s ⟨"writer", "pending", none, some "✍️ Starting writing phase..."⟩
    let s := emit s ⟨"writer", "active", some "Creating initial draft based on research...", none⟩
    match o.writerLLM topic researchOutput 800 with
    | .error e => ⟨.error e, s, [.research topic, .writer topic researchOutput 800]⟩
    | .ok draftContent =>
      let s := emit s ⟨"writer", "completed",
        some ("Draft completed: " ++ toString draftContent.length ++ " chars written"), none⟩
      let s := emit s ⟨"editor", "pending", none, some "📝 Starting editing phase..."⟩
      let s := emit s ⟨"editor", "active", some "Reviewing and refining content...", none⟩
      match o.editorLLM draftContent with
      | .error e => ⟨.error e, s,
          [.research topic, .writer topic researchOutput 800, .editor draftContent]⟩
      | .ok editedContent =>
        let s := emit s ⟨"editor", "completed",
          some "Editing completed: Content refined and improved", none⟩
        let s := emit s ⟨"seo", "pending", none, some "🔎 Starting SEO optimization..."⟩
        let s := emit s ⟨"seo", "active", some "Optimizing for search engines...", none⟩
        match o.seoLLM editedContent topic with
        | .error e => ⟨.error e, s,
            [.research topic, .writer topic researchOutput 800, .editor draftContent,
             .seo editedContent topic]⟩
        | .ok seoRaw =>
          let seoResult := seoParse seoRaw
          let s := emit s ⟨"seo", "completed",
            some ("SEO completed: " ++ toString seoResult.keywords.length
              ++ " keywords, slug: " ++ seoResult.slug), none⟩
          let s := emit s ⟨"publisher", "pending", none, some "📤 Publishing markdown..."⟩
          let s := emit s ⟨"publisher", "active", some "Formatting and preparing markdown...", none⟩
          match o.publisherLLM seoResult.optimizedContent topic seoResult.metaDescription
              (String.intercalate ", " seoResult.keywords) with
          | .error e => ⟨.error e, s,
              [.research topic, .writer topic researchOutput 800, .editor draftContent,
               .seo editedContent topic,
               .publisher seoResult.optimizedContent topic seoResult.metaDescription
                 (String.intercalate ", " seoResult.keywords)]⟩
          | .ok publisherResp =>
            let markdownOutput := publisherPublish o.now publisherResp
              seoResult.optimizedContent topic seoResult.metaDescription
              seoResult.keywords seoResult.slug
            let s :=
              if opts.saveFiles then
                emit s ⟨"publisher", "completed",
                  some ("Markdown published: output/" ++ markdownOutput.metadata.slug ++ ".md"), none⟩
              else
                emit s ⟨"publisher", "completed", some "Markdown generated successfully", none⟩
            let callsSoFar :=
              [StageCall.research topic, .writer topic researchOutput 800, .editor draftContent,
               .seo editedContent topic,
               .publisher seoResult.optimizedContent topic seoResult.metaDescription
                 (String.intercalate ", " seoResult.keywords)]
            if opts.publishHTML then
              let s := emit s ⟨"html", "pending", none, some "🌐 Publishing HTML..."⟩
              let s := emit s ⟨"html", "active", some "Converting to HTML and styling...", none⟩
              let author :=
                if markdownOutput.metadata.author = "" then "Content Management System"
                else markdownOutput.metadata.author
              let keywordsJoined := String.intercalate ", " markdownOutput.metadata.keywords
              let htmlCall := StageCall.html markdownOutput.formattedContent
                markdownOutput.metadata.title markdownOutput.metadata.metaDescription
                keywordsJoined author markdownOutput.metadata.publishedDate
              match o.htmlLLM markdownOutput.formattedContent markdownOutput.metadata.title
                  markdownOutput.metadata.metaDescription keywordsJoined author
                  markdownOutput.metadata.publishedDate with
              | .error e => ⟨.error e, s, callsSoFar ++ [htmlCall]⟩
              | .ok htmlResp =>
                if opts.saveFiles then
                  let htmlOutput := htmlPublish htmlResp markdownOutput.metadata
                    (opts.outputDir ++ "/html")
                  let s := emit s ⟨"html", "completed",
                    some ("HTML published: " ++ htmlOutput.filePath), none⟩
                  ⟨.ok ⟨markdownOutput, some htmlOutput⟩, s, callsSoFar ++ [htmlCall]⟩
                else
                  let htmlOutput := htmlPublishWithoutSaving htmlResp markdownOutput.metadata
                  let s := emit s ⟨"html", "completed", some "HTML generated successfully", none⟩
                  ⟨.ok ⟨markdownOutput, some htmlOutput⟩, s, callsSoFar ++ [htmlCall]⟩
            else
              ⟨.ok ⟨markdownOutput, none⟩, s, callsSoFar⟩

/-- `run` with the event-collecting emitter: `emitterState` is the list of
`agent-progress` events delivered to a subscribed listener, in emission
order. -/
def run (o : Oracle) (topic : String) (opts : RunOptions) :
    RunOutcome (List ProgressEvent) :=
  runE (fun l e => l ++ [e]) [] o topic opts

/-- The value of `runBatch`: the dense list of results of the successful
topics, plus the list of topics attempted (every loop iteration runs,
errors are caught and logged). -/
structure BatchOutcome where
  results : List RunResult
  attempted : List String
deriving Repr

/-- `EnhancedContentWorkflow.runBatch`: run every topic in order; a
failure is caught and the loop continues; only successful results are
pushed.  (The inter-topic `setTimeout` delay and the final HTML index page
are elided: neither affects the returned value.) -/
def runBatch (o : Oracle) (topics : List String) (opts : RunOptions) : BatchOutcome :=
  match topics with
  | [] => ⟨[], []⟩
  | t :: rest =>
    let tail := runBatch o rest opts
    match (run o t opts).result with
    | .ok r => ⟨r :: tail.results, t :: tail.attempted⟩
    | .error _ => ⟨tail.results, t :: tail.attempted⟩

/-! ## Async job store and Lambda handler (`src/src/lambda/workflow.ts`) -/

/-- The markdown payload stored in a completed job record:
`{content: result.markdown.formattedContent, metadata: ...}`. -/
structure JobPayloadMarkdown where
  content : String
  metadata : ContentMetadata
deriving Repr, DecidableEq

/-- The html payload stored in a completed job record. -/
structure JobPayloadHtml where
  content : String
  metadata : HTMLMetadata
deriving Repr, DecidableEq

/-- The JSON blob written to `jobs/{jobId}.json`: union of the three
shapes the handler writes (initial, completed, failed); absent JSON fields
are `none`.  Each stored progress event is wrapped on the wire as
`{type: 'agent-progress', data}`; the constant wrapper is elided. -/
structure JobRecord where
  jobId : String
  topic : String
  status : String
  startedAt : Option String
  completedAt : Option String
  failedAt : Option String
  success : Option Bool
  markdown : Option JobPayloadMarkdown
  html : Option JobPayloadHtml
  error : Option String
  progressEvents : List ProgressEvent
deriving Repr, DecidableEq

/-- The S3 object key of a job: `jobs/${jobId}.json`. -/
def jobKey (jobId : String) : String :=
  "jobs/" ++ jobId ++ ".json"

/-- The initial `processing` record written before the workflow starts. -/
def initialJobRecord (now jobId topic : String) : JobRecord :=
  { jobId := jobId, topic := topic, status := "processing"
    startedAt := some now, completedAt := none, failedAt := none
    success := none, markdown := none, html := none, error := none
    progressEvents := [] }

/-- The terminal record written by `runWorkflowAsync` on success. -/
def completedJobRecord (now jobId topic : String) (r : RunResult)
    (events : List ProgressEvent) : JobRecord :=
  { jobId := jobId, topic := topic, status := "completed"
    startedAt := some now, completedAt := some now, failedAt := none
    success := some true
    markdown := some ⟨r.markdown.formattedContent, r.markdown.metadata⟩
    html := r.html.map (fun h => ⟨h.htmlContent, h.metadata⟩)
    error := none
    progressEvents := events }

/-- The terminal record written by `runWorkflowAsync` on failure. -/
def failedJobRecord (now jobId topic errMsg : String) : JobRecord :=
  { jobId := jobId, topic := topic, status := "failed"
    startedAt := none, completedAt := none, failedAt := some now
    success := some false, markdown := none, html := none
    error := some errMsg, progressEvents := [] }

/-- The run options `runWorkflowAsync` (and the sync endpoint) pass to the
workflow: `{publishHTML: true, outputDir: 'output', saveFiles: false}`. -/
def lambdaRunOptions : RunOptions :=
  { publishHTML := true, outputDir := "output", saveFiles := false }

/-- The (key, record) S3 writes performed by `runWorkflowAsync(jobId,
topic)`: exactly one terminal write to the job's own key. -/
def runWorkflowAsyncWrites (o : Oracle) (jobId topic : String) :
    List (String × JobRecord) :=
  let out := run o topic lambdaRunOptions
  match out.result with
  | .ok r => [(jobKey jobId, completedJobRecord o.now jobId topic r out.emitterState)]
  | .error e => [(jobKey jobId, failedJobRecord o.now jobId topic e)]

/-- All S3 writes of one accepted async job, in order: the handler's
initial `processing` write followed by the background task's terminal
write. -/
def jobLifecycleWrites (o : Oracle) (jobId topic : String) :
    List (String × JobRecord) :=
  (jobKey jobId, initialJobRecord o.now jobId topic) :: runWorkflowAsyncWrites o jobId topic

/-- Apply a sequence of whole-record overwrites to the store
(last write wins per key). -/
def applyWrites (store : String → Option JobRecord)
    (ws : List (String × JobRecord)) : String → Option JobRecord :=
  ws.foldl (fun st w => fun k => if k = w.1 then some w.2 else st k) store

/-- The `jobId` extracted by the status route: the path must match
`/^\/api\/status\/[\w-]+$/`, and `path.split('/').pop()` is then the part
after the last slash. -/
def statusPathJobId (path : String) : Option String :=
  let pre := "/api/status/".data
  if pre.isPrefixOf path.data then
    let rest := path.data.drop pre.length
    if rest ≠ [] && rest.all isWordDashChar then some ⟨rest⟩ else none
  else none

/-- JS `!topic || topic.trim() === ''` on the parsed request body's
`topic` field (`none` = field absent or not sent). -/
def topicMissing : Option String → Bool
  | none => true
  | some t => t = "" || jsTrim t = ""

/-- The response bodies the Lambda handler can produce (constant fields
such as CORS headers, `message` and `estimatedTime` strings are elided). -/
inductive ApiBody where
  | empty
  | health
  | jobRecord (record : JobRecord)
  | failure (error : String)
  | acceptedJob (jobId : String)
  | syncResult (topic : String) (result : RunResult) (progressEvents : List ProgressEvent)
  | notFoundPath (path : String)
deriving Repr, DecidableEq

/-- An HTTP response of the handler. -/
structure ApiResponse where
  statusCode : Nat
  body : ApiBody
deriving Repr, DecidableEq

/-- What one handler invocation produces: the HTTP response, the S3 writes
it (or its spawned background task) performs, and the remote stage calls
issued. -/
structure HandlerOutcome where
  response : ApiResponse
  writes : List (String × JobRecord)
  calls : List StageCall
deriving Repr

/-- The API-Gateway branch of `handler` (lines 122-306 of
`src/src/lambda/workflow.ts`): OPTIONS preflight, `GET /health`,
`POST /api/workflow` (async job), `GET /api/status/{jobId}`,
`POST /api/workflow-sync`, then 404.  `freshJobId` stands for the
`randomUUID()` value, `store` for the current S3 bucket contents, and
`bodyTopic` for the `topic` field of the parsed JSON body. -/
def handleApiGateway (o : Oracle) (freshJobId : String)
    (store : String → Option JobRecord)
    (httpMethod path : String) (bodyTopic : Option String) : HandlerOutcome :=
  if httpMethod = "OPTIONS" then
    ⟨⟨200, .empty⟩, [], []⟩
  else if path = "/health" ∧ httpMethod = "GET" then
    ⟨⟨200, .health⟩, [], []⟩
  else if path = "/api/workflow" ∧ httpMethod = "POST" then
    if topicMissing bodyTopic then
      ⟨⟨400, .failure "Topic is required"⟩, [], []⟩
    else
      let topic := bodyTopic.getD ""
      ⟨⟨202, .acceptedJob freshJobId⟩,
        jobLifecycleWrites o freshJobId topic,
        (run o topic lambdaRunOptions).calls⟩
  else if (statusPathJobId path).isSome ∧ httpMethod = "GET" then
    match store (jobKey ((statusPathJobId path).getD "")) with
    | some record => ⟨⟨200, .jobRecord record⟩, [], []⟩
    | none => ⟨⟨404, .failure "Job not found"⟩, [], []⟩
  else if path = "/api/workflow-sync" ∧ httpMethod = "POST" then
    if topicMissing bodyTopic then
      ⟨⟨400, .failure "Topic is required"⟩, [], []⟩
    else
      let topic := bodyTopic.getD ""
      let out := run o topic lambdaRunOptions
      match out.result with
      | .ok r => ⟨⟨200, .syncResult topic r out.emitterState⟩, [], out.calls⟩
      | .error e =>
        ⟨⟨500, .failure (if e = "" then "An error occurred during workflow execution" else e)⟩,
          [], out.calls⟩
  else
    ⟨⟨404, .notFoundPath path⟩, [], []⟩


/-! ## Concrete environments used by witnesses and counterexamples -/

/-- A templated SEO response in the format the prompt requests. -/
def demoSeoRaw : String :=
  "[OPTIMIZED CONTENT]\ncontent body\n[META DESCRIPTION]\ndesc\n[KEYWORDS]\nalpha, beta\n[SEO RECOMMENDATIONS]\nnone\n[SLUG]\nquantum-computing"

/-- An environment in which every remote call succeeds with a fixed
response. -/
def demoOracle : Oracle :=
  { researchLLM := fun _ => .ok "research notes"
    writerLLM := fun _ _ _ => .ok "draft text"
    editorLLM := fun _ => .ok "edited text"
    seoLLM := fun _ _ => .ok demoSeoRaw
    publisherLLM := fun _ _ _ _ => .ok "# Final article"
    htmlLLM := fun _ _ _ _ _ _ => .ok "<html><body>ok</body></html>"
    now := "2026-01-01T00:00:00.000Z" }

/-- An environment failing exactly on the topic "alpha" (fault injection
at one index), succeeding elsewhere. -/
def failingOracle : Oracle :=
  { demoOracle with
    researchLLM := fun t => if t = "alpha" then .error "API failure" else .ok "research notes" }

/-- An environment identical to `demoOracle` except that the HTML stage's
response mentions a doctype without starting with one — a response shape
the guard in `HTMLPublisherAgent` fails to fix. -/
def doctypeBugOracle : Oracle :=
  { demoOracle with
    htmlLLM := fun _ _ _ _ _ _ =>
      .ok "<main>Quantum Computing article</main> <!doctype was omitted here" }

/-! ## C1: stage order and data flow -/

/-- C1: on any non-empty topic where every stage call succeeds,
`EnhancedContentWorkflow.run` issues exactly the six remote stage calls in
the order research, writer, editor, seo, publisher, then html, the last
present exactly when `publishHTML` is set; each call's input is the
preceding stage's output (writer gets the research output, editor the
draft, seo the edited content, publisher the SEO-optimized content, html
the published markdown); and the result's `html` field is present exactly
when `publishHTML` is set. -/
theorem run_stage_order_and_dataflow
    (o : Oracle) (topic : String) (opts : RunOptions)
    (_htopic : topic ≠ "")
    (r d e sraw p h : String)
    (hr : o.researchLLM topic = .ok r)
    (hw : o.writerLLM topic r 800 = .ok d)
    (he : o.editorLLM d = .ok e)
    (hs : o.seoLLM e topic = .ok sraw)
    (hp : o.publisherLLM (seoParse sraw).optimizedContent topic
        (seoParse sraw).metaDescription
        (String.intercalate ", " (seoParse sraw).keywords) = .ok p)
    (hh : o.htmlLLM p topic (seoParse sraw).metaDescription
        (String.intercalate ", " (seoParse sraw).keywords) "AI Content Team" o.now = .ok h) :
    (run o topic opts).calls =
      [.research topic, .writer topic r 800, .editor d, .seo e topic,
       .publisher (seoParse sraw).optimizedContent topic (seoParse sraw).metaDescription
         (String.intercalate ", " (seoParse sraw).keywords)]
      ++ (if opts.publishHTML then
            [StageCall.html p topic (seoParse sraw).metaDescription
              (String.intercalate ", " (seoParse sraw).keywords) "AI Content Team" o.now]
          else [])
    ∧ ∃ res, (run o topic opts).result = .ok res ∧ res.html.isSome = opts.publishHTML := by
  unfold run
  simp only [runE, hr, hw, he, hs, hp, publisherPublish]
  by_cases hph : opts.publishHTML
  · simp only [hph, if_true]
    simp only [show ("AI Content Team" : String) ≠ "" from by decide, if_neg, ite_false, hh]
    by_cases hsf : opts.saveFiles <;> simp [hsf]
  · simp [hph]

/-- C1 witness: the theorem applied to the concrete succeeding
environment on the topic "Quantum Computing" with default options. -/
theorem run_stage_order_and_dataflow_witness :
    ("Quantum Computing" : String) ≠ "" ∧
    ((run demoOracle "Quantum Computing" {}).calls =
      [.research "Quantum Computing",
       .writer "Quantum Computing" "research notes" 800,
       .editor "draft text",
       .seo "edited text" "Quantum Computing",
       .publisher (seoParse demoSeoRaw).optimizedContent "Quantum Computing"
         (seoParse demoSeoRaw).metaDescription
         (String.intercalate ", " (seoParse demoSeoRaw).keywords)]
      ++ (if ({} : RunOptions).publishHTML then
            [StageCall.html "# Final article" "Quantum Computing"
              (seoParse demoSeoRaw).metaDescription
              (String.intercalate ", " (seoParse demoSeoRaw).keywords)
              "AI Content Team" demoOracle.now]
          else [])
    ∧ ∃ res, (run demoOracle "Quantum Computing" {}).result = .ok res
        ∧ res.html.isSome = ({} : RunOptions).publishHTML) :=
  ⟨by decide,
   run_stage_order_and_dataflow demoOracle "Quantum Computing" {} (by decide)
     "research notes" "draft text" "edited text" demoSeoRaw "# Final article"
     "<html><body>ok</body></html>" rfl rfl rfl rfl rfl rfl⟩

/-! ## C2: empty-topic handling in the orchestrator -/

/-- C2 counterexample: on the empty topic, `EnhancedContentWorkflow.run`
does not fail with any input-validation error before calling a stage — its
very first remote call is the research stage on the empty topic, and the
run completes successfully.  (The method body has no topic check at
all.) -/
theorem run_empty_topic_counterexample :
    (run demoOracle "" {}).calls.head? = some (.research "")
    ∧ (run demoOracle "" {}).result.toOption.isSome = true := by
  constructor <;> rfl

set_option maxHeartbeats 1600000 in
/-- C2 (amended): `EnhancedContentWorkflow.run` performs no topic
validation; for every empty or whitespace-only topic it still begins by
emitting the research progress events and invoking the research stage on
that topic.  Rejection of empty topics happens only in the transport
handlers (see the 400 "Topic is required" path of `handleApiGateway`),
not in the orchestrator. -/
theorem run_empty_topic_invokes_research
    (o : Oracle) (opts : RunOptions) (topic : String)
    (_h : jsTrim topic = "") :
    (run o topic opts).calls.head? = some (.research topic)
    ∧ (run o topic opts).emitterState.head? =
        some ⟨"research", "pending", none, some "🔍 Starting research phase..."⟩ := by
  unfold run
  simp only [runE]
  constructor <;>
    · repeat' split
      all_goals rfl

/-- C2 witness for the amended theorem, at the whitespace-only topic
`"  "`. -/
theorem run_empty_topic_invokes_research_witness :
    jsTrim "  " = ""
    ∧ ((run demoOracle "  " {}).calls.head? = some (.research "  ")
       ∧ (run demoOracle "  " {}).emitterState.head? =
           some ⟨"research", "pending", none, some "🔍 Starting research phase..."⟩) :=
  ⟨by decide, run_empty_topic_invokes_research demoOracle {} "  " (by decide)⟩

/-! ## C3: progress event sequence -/

/-- C3 counterexample: on a successful run the emitted event sequence
does not consist of one `active` plus one `completed` event per stage:
the very first event has status `pending`, and the agent/status sequence
differs from the active/completed-only sequence the claim describes. -/
theorem progress_events_counterexample :
    (run demoOracle "Quantum Computing" {}).emitterState.head? =
      some ⟨"research", "pending", none, some "🔍 Starting research phase..."⟩
    ∧ (run demoOracle "Quantum Computing" {}).emitterState.map
        (fun ev => (ev.agent, ev.status)) ≠
      [("research", "active"), ("research", "completed"),
       ("writer", "active"), ("writer", "completed"),
       ("editor", "active"), ("editor", "completed"),
       ("seo", "active"), ("seo", "completed"),
       ("publisher", "active"), ("publisher", "completed"),
       ("html", "active"), ("html", "completed")] := by
  constructor
  · rfl
  · decide

/-- C3 (amended): for every run in which all stage calls succeed, the
notifier receives exactly three events per stage — `pending`, then
`active` immediately before the stage's remote call, then `completed`
immediately after it — in the fixed stage order research, writer, editor,
seo, publisher, and finally html exactly when `publishHTML` is set; no
stage's events repeat and no stage is skipped. -/
theorem progress_event_sequence
    (o : Oracle) (topic : String) (opts : RunOptions)
    (r d e sraw p h : String)
    (hr : o.researchLLM topic = .ok r)
    (hw : o.writerLLM topic r 800 = .ok d)
    (he : o.editorLLM d = .ok e)
    (hs : o.seoLLM e topic = .ok sraw)
    (hp : o.publisherLLM (seoParse sraw).optimizedContent topic
        (seoParse sraw).metaDescription
        (String.intercalate ", " (seoParse sraw).keywords) = .ok p)
    (hh : o.htmlLLM p topic (seoParse sraw).metaDescription
        (String.intercalate ", " (seoParse sraw).keywords) "AI Content Team" o.now = .ok h) :
    (run o topic opts).emitterState.map (fun ev => (ev.agent, ev.status)) =
      [("research", "pending"), ("research", "active"), ("research", "completed"),
       ("writer", "pending"), ("writer", "active"), ("writer", "completed"),
       ("editor", "pending"), ("editor", "active"), ("editor", "completed"),
       ("seo", "pending"), ("seo", "active"), ("seo", "completed"),
       ("publisher", "pending"), ("publisher", "active"), ("publisher", "completed")]
      ++ (if opts.publishHTML then
            [("html", "pending"), ("html", "active"), ("html", "completed")]
          else []) := by
  unfold run
  simp only [runE, hr, hw, he, hs, hp, publisherPublish]
  by_cases hph : opts.publishHTML
  · simp only [hph, if_true]
    simp only [show ("AI Content Team" : String) ≠ "" from by decide, if_neg, ite_false, hh]
    by_cases hsf : opts.saveFiles <;> simp [hsf]
  · by_cases hsf : opts.saveFiles <;> simp [hph, hsf]

/-- C3 witness for the amended theorem: the concrete succeeding
environment with default options. -/
theorem progress_event_sequence_witness :
    demoOracle.researchLLM "Quantum Computing" = .ok "research notes"
    ∧ (run demoOracle "Quantum Computing" {}).emitterState.map
        (fun ev => (ev.agent, ev.status)) =
      [("research", "pending"), ("research", "active"), ("research", "completed"),
       ("writer", "pending"), ("writer", "active"), ("writer", "completed"),
       ("editor", "pending"), ("editor", "active"), ("editor", "completed"),
       ("seo", "pending"), ("seo", "active"), ("seo", "completed"),
       ("publisher", "pending"), ("publisher", "active"), ("publisher", "completed")]
      ++ (if ({} : RunOptions).publishHTML then
            [("html", "pending"), ("html", "active"), ("html", "completed")]
          else []) :=
  ⟨rfl,
   progress_event_sequence demoOracle "Quantum Computing" {}
     "research notes" "draft text" "edited text" demoSeoRaw "# Final article"
     "<html><body>ok</body></html>" rfl rfl rfl rfl rfl rfl⟩

/-! ## C9: progress emission does not influence the pipeline value -/

/-- C9: the resolved value and the remote calls of
`EnhancedContentWorkflow.run` are identical for every progress emitter —
in particular for the null emitter modelling an unset `globalEmitter`
(events silently dropped) and for any event-collecting subscriber.  The
emitter state machine never feeds back into the pipeline. -/
theorem run_independent_of_emitter {σ₁ σ₂ : Type}
    (emit₁ : σ₁ → ProgressEvent → σ₁) (s₁ : σ₁)
    (emit₂ : σ₂ → ProgressEvent → σ₂) (s₂ : σ₂)
    (o : Oracle) (topic : String) (opts : RunOptions) :
    (runE emit₁ s₁ o topic opts).result = (runE emit₂ s₂ o topic opts).result
    ∧ (runE emit₁ s₁ o topic opts).calls = (runE emit₂ s₂ o topic opts).calls := by
  simp only [runE]
  cases o.researchLLM topic with
  | error e => exact ⟨rfl, rfl⟩
  | ok r =>
  dsimp only
  cases o.writerLLM topic r 800 with
  | error e => exact ⟨rfl, rfl⟩
  | ok d =>
  dsimp only
  cases o.editorLLM d with
  | error e => exact ⟨rfl, rfl⟩
  | ok ec =>
  dsimp only
  cases o.seoLLM ec topic with
  | error e => exact ⟨rfl, rfl⟩
  | ok sraw =>
  dsimp only
  cases o.publisherLLM (seoParse sraw).optimizedContent topic
      (seoParse sraw).metaDescription
      (String.intercalate ", " (seoParse sraw).keywords) with
  | error e => exact ⟨rfl, rfl⟩
  | ok p =>
  dsimp only
  by_cases hph : opts.publishHTML
  · simp only [hph, if_true]
    cases o.htmlLLM (publisherPublish o.now p (seoParse sraw).optimizedContent topic
          (seoParse sraw).metaDescription (seoParse sraw).keywords
          (seoParse sraw).slug).formattedContent
        (publisherPublish o.now p (seoParse sraw).optimizedContent topic
          (seoParse sraw).metaDescription (seoParse sraw).keywords
          (seoParse sraw).slug).metadata.title
        (publisherPublish o.now p (seoParse sraw).optimizedContent topic
          (seoParse sraw).metaDescription (seoParse sraw).keywords
          (seoParse sraw).slug).metadata.metaDescription
        (String.intercalate ", " (publisherPublish o.now p (seoParse sraw).optimizedContent topic
          (seoParse sraw).metaDescription (seoParse sraw).keywords
          (seoParse sraw).slug).metadata.keywords)
        (if (publisherPublish o.now p (seoParse sraw).optimizedContent topic
              (seoParse sraw).metaDescription (seoParse sraw).keywords
              (seoParse sraw).slug).metadata.author = ""
         then "Content Management System"
         else (publisherPublish o.now p (seoParse sraw).optimizedContent topic
              (seoParse sraw).metaDescription (seoParse sraw).keywords
              (seoParse sraw).slug).metadata.author)
        (publisherPublish o.now p (seoParse sraw).optimizedContent topic
          (seoParse sraw).metaDescription (seoParse sraw).keywords
          (seoParse sraw).slug).metadata.publishedDate with
    | error e => exact ⟨rfl, rfl⟩
    | ok hres =>
      dsimp only
      by_cases hsf : opts.saveFiles <;>
        simp only [hsf, if_true, if_false, ite_true, ite_false] <;>
        constructor <;> first | rfl | trivial
  · simp only [hph, if_false, ite_false]
    exact ⟨rfl, rfl⟩

/-! ## C4: batch processing -/

/-- `runBatch` characterised: every topic is attempted in order, and the
returned list is the dense `filterMap` of the per-topic results. -/
theorem runBatch_characterisation (o : Oracle) (opts : RunOptions) :
    ∀ topics, runBatch o topics opts =
      ⟨topics.filterMap (fun t => ((run o t opts).result).toOption), topics⟩ := by
  intro topics
  induction topics with
  | nil => rfl
  | cons t rest ih =>
    unfold runBatch
    rw [ih]
    cases h : (run o t opts).result <;> simp [List.filterMap_cons, h, Except.toOption]

theorem length_filterMap_of_all_isSome {α β : Type} (f : α → Option β) :
    ∀ l : List α, (∀ t ∈ l, (f t).isSome = true) → (l.filterMap f).length = l.length := by
  intro l
  induction l with
  | nil => intro _; rfl
  | cons a rest ih =>
    intro h
    have ha := h a (by simp)
    cases hfa : f a with
    | none => rw [hfa] at ha; simp at ha
    | some b =>
      rw [List.filterMap_cons, hfa]
      simp only [List.length_cons]
      rw [ih (fun t ht => h t (by simp [ht]))]

/-- C4 counterexample: with two topics where the first fails, `runBatch`
returns a dense one-element list holding the second topic's result — not
a two-element parallel sequence of optionals aligned with the input (the
element at index 0 belongs to the topic at index 1). -/
theorem runBatch_counterexample :
    (runBatch failingOracle ["alpha", "beta"] {}).attempted = ["alpha", "beta"]
    ∧ (runBatch failingOracle ["alpha", "beta"] {}).results.length = 1
    ∧ (runBatch failingOracle ["alpha", "beta"] {}).results.map
        (fun r => r.markdown.metadata.title) = ["beta"] := by
  refine ⟨rfl, rfl, rfl⟩

/-- C4 (amended): when the run of one topic fails and all others succeed,
`runBatch` still attempts every topic in order (no early abort) and
returns the successful results only, as a dense list in input order of
length N-1 — the failed topic's slot is omitted, not represented by an
absent optional. -/
theorem runBatch_skips_failed
    (o : Oracle) (opts : RunOptions) (pre post : List String) (bad : String)
    (hpre : ∀ t ∈ pre, ((run o t opts).result).toOption.isSome = true)
    (hpost : ∀ t ∈ post, ((run o t opts).result).toOption.isSome = true)
    (hbad : ((run o bad opts).result).toOption = none) :
    (runBatch o (pre ++ bad :: post) opts).attempted = pre ++ bad :: post
    ∧ (runBatch o (pre ++ bad :: post) opts).results.length + 1 =
        (pre ++ bad :: post).length
    ∧ (runBatch o (pre ++ bad :: post) opts).results =
        (pre ++ post).filterMap (fun t => ((run o t opts).result).toOption) := by
  rw [runBatch_characterisation]
  refine ⟨rfl, ?_, ?_⟩
  · simp only [List.filterMap_append, List.filterMap_cons, hbad, List.length_append,
      List.length_cons]
    rw [length_filterMap_of_all_isSome _ pre hpre,
      length_filterMap_of_all_isSome _ post hpost]
    omega
  · simp [List.filterMap_append, List.filterMap_cons, hbad]

/-- C4 witness: fault injected at index 0 of `["alpha", "beta"]`. -/
theorem runBatch_skips_failed_witness :
    ((run failingOracle "alpha" {}).result).toOption = none
    ∧ ((runBatch failingOracle ([] ++ "alpha" :: ["beta"]) {}).attempted =
         [] ++ "alpha" :: ["beta"]
       ∧ (runBatch failingOracle ([] ++ "alpha" :: ["beta"]) {}).results.length + 1 =
           ([] ++ "alpha" :: ["beta"]).length
       ∧ (runBatch failingOracle ([] ++ "alpha" :: ["beta"]) {}).results =
           ([] ++ ["beta"]).filterMap
             (fun t => ((run failingOracle t {}).result).toOption)) :=
  ⟨rfl,
   runBatch_skips_failed failingOracle {} [] ["beta"] "alpha"
     (by intro t ht; simp at ht)
     (by intro t ht; rw [List.mem_singleton] at ht; subst ht; rfl)
     rfl⟩

/-! ## C5: job status lifecycle -/

/-- C5: every async job's store writes are exactly two whole-record
overwrites of the job's own key: first the `processing` record, then a
single terminal record whose status is `completed` (success) or `failed`
(error) — so the only transitions are processing→completed and
processing→failed, each happening once, after which no further write
occurs and any later read of the key returns that same terminal record
regardless of the store's prior contents. -/
theorem job_lifecycle_writes (o : Oracle) (jobId topic : String) :
    ∃ term : JobRecord,
      jobLifecycleWrites o jobId topic =
        [(jobKey jobId, initialJobRecord o.now jobId topic), (jobKey jobId, term)]
      ∧ (initialJobRecord o.now jobId topic).status = "processing"
      ∧ ((term.status = "completed" ∧ term.success = some true)
         ∨ (term.status = "failed" ∧ term.success = some false))
      ∧ ∀ store : String → Option JobRecord,
          applyWrites store (jobLifecycleWrites o jobId topic) (jobKey jobId) = some term := by
  unfold jobLifecycleWrites runWorkflowAsyncWrites
  cases h : (run o topic lambdaRunOptions).result with
  | ok r =>
    refine ⟨completedJobRecord o.now jobId topic r
        (run o topic lambdaRunOptions).emitterState, ?_, rfl, ?_, ?_⟩
    · simp [h]
    · left; exact ⟨rfl, rfl⟩
    · intro store
      simp [h, applyWrites]
  | error e =>
    refine ⟨failedJobRecord o.now jobId topic e, ?_, rfl, ?_, ?_⟩
    · simp [h]
    · right; exact ⟨rfl, rfl⟩
    · intro store
      simp [h, applyWrites]

/-! ## C6: status endpoint -/

theorem statusPathJobId_append (jobId : String) (h1 : jobId.data ≠ [])
    (h2 : jobId.data.all isWordDashChar = true) :
    statusPathJobId ("/api/status/" ++ jobId) = some jobId := by
  unfold statusPathJobId
  rw [String.data_append]
  have hpre : "/api/status/".data.isPrefixOf ("/api/status/".data ++ jobId.data) = true := by
    rw [List.isPrefixOf_iff_prefix]
    exact List.prefix_append _ _
  rw [if_pos hpre, List.drop_left]
  have hcond : (decide (jobId.data ≠ []) && jobId.data.all isWordDashChar) = true := by
    simp [h1, h2]
  rw [if_pos hcond]

theorem api_status_path_ne_health (s : String) : ("/api/status/" ++ s) ≠ "/health" := by
  intro h
  have hl := congrArg String.length h
  rw [String.length_append] at hl
  have ha : ("/api/status/" : String).length = 12 := rfl
  have hb : ("/health" : String).length = 7 := rfl
  rw [ha, hb] at hl
  omega

theorem api_status_path_ne_workflow (s : String) :
    ("/api/status/" ++ s) ≠ "/api/workflow" := by
  intro h
  have hd := congrArg String.data h
  rw [String.data_append] at hd
  have hpre : "/api/status/".data = ['/', 'a', 'p', 'i', '/', 's', 't', 'a', 't', 'u', 's', '/'] := rfl
  have hwf : "/api/workflow".data = ['/', 'a', 'p', 'i', '/', 'w', 'o', 'r', 'k', 'f', 'l', 'o', 'w'] := rfl
  rw [hpre, hwf] at hd
  simp only [List.cons_append, List.cons.injEq] at hd
  exact absurd hd.2.2.2.2.2.1 (by decide)

theorem api_status_path_ne_workflow_sync (s : String) :
    ("/api/status/" ++ s) ≠ "/api/workflow-sync" := by
  intro h
  have hd := congrArg String.data h
  rw [String.data_append] at hd
  have hpre : "/api/status/".data = ['/', 'a', 'p', 'i', '/', 's', 't', 'a', 't', 'u', 's', '/'] := rfl
  have hwf : "/api/workflow-sync".data =
      ['/', 'a', 'p', 'i', '/', 'w', 'o', 'r', 'k', 'f', 'l', 'o', 'w', '-', 's', 'y', 'n', 'c'] := rfl
  rw [hpre, hwf] at hd
  simp only [List.cons_append, List.cons.injEq] at hd
  exact absurd hd.2.2.2.2.2.1 (by decide)

/-- C6: `GET /api/status/{jobId}` (any identifier matching the route's
`[\w-]+` pattern): when the store holds no record under the job's key the
handler answers 404 with `{success:false, error:"Job not found"}` and
performs no writes and no stage calls; when a record is stored it answers
200 with exactly that persisted record. -/
theorem status_endpoint_behaviour (o : Oracle) (freshId : String)
    (store : String → Option JobRecord) (jobId : String)
    (h1 : jobId.data ≠ []) (h2 : jobId.data.all isWordDashChar = true) :
    (store (jobKey jobId) = none →
      handleApiGateway o freshId store "GET" ("/api/status/" ++ jobId) none =
        ⟨⟨404, .failure "Job not found"⟩, [], []⟩)
    ∧ ∀ record, store (jobKey jobId) = some record →
        handleApiGateway o freshId store "GET" ("/api/status/" ++ jobId) none =
          ⟨⟨200, .jobRecord record⟩, [], []⟩ := by
  have hroute : statusPathJobId ("/api/status/" ++ jobId) = some jobId :=
    statusPathJobId_append jobId h1 h2
  constructor
  · intro hnone
    unfold handleApiGateway
    rw [if_neg (by decide)]
    rw [if_neg (fun hc => api_status_path_ne_health jobId hc.1)]
    rw [if_neg (fun hc => absurd hc.2 (by decide))]
    rw [if_pos ⟨by rw [hroute]; rfl, rfl⟩]
    rw [hroute]
    simp [hnone]
  · intro record hsome
    unfold handleApiGateway
    rw [if_neg (by decide)]
    rw [if_neg (fun hc => api_status_path_ne_health jobId hc.1)]
    rw [if_neg (fun hc => absurd hc.2 (by decide))]
    rw [if_pos ⟨by rw [hroute]; rfl, rfl⟩]
    rw [hroute]
    simp [hsome]

/-- C6 witness: the concrete identifier `"abc-123"` against an empty
store (404 case) and against a store holding its initial record (200
case). -/
theorem status_endpoint_behaviour_witness :
    ("abc-123" : String).data ≠ []
    ∧ (((fun _ => none : String → Option JobRecord) (jobKey "abc-123") = none →
        handleApiGateway demoOracle "j" (fun _ => none) "GET" ("/api/status/" ++ "abc-123") none =
          ⟨⟨404, .failure "Job not found"⟩, [], []⟩)
       ∧ ∀ record, (fun _ => none : String → Option JobRecord) (jobKey "abc-123") = some record →
           handleApiGateway demoOracle "j" (fun _ => none) "GET" ("/api/status/" ++ "abc-123") none =
             ⟨⟨200, .jobRecord record⟩, [], []⟩) :=
  ⟨by decide,
   status_endpoint_behaviour demoOracle "j" (fun _ => none) "abc-123" (by decide) (by decide)⟩

/-! ## C7: workflow endpoint input validation -/

/-- C7: `POST /api/workflow` with an absent, empty, or whitespace-only
`topic` answers 400 with `{success:false, error:"Topic is required"}`,
performing no store write (no job is created) and issuing no remote stage
call (no workflow is started). -/
theorem workflow_endpoint_rejects_missing_topic (o : Oracle) (freshId : String)
    (store : String → Option JobRecord) (bodyTopic : Option String)
    (h : topicMissing bodyTopic = true) :
    handleApiGateway o freshId store "POST" "/api/workflow" bodyTopic =
      ⟨⟨400, .failure "Topic is required"⟩, [], []⟩ := by
  unfold handleApiGateway
  rw [if_neg (by decide)]
  rw [if_neg (fun hc => absurd hc.1 (by decide))]
  rw [if_pos ⟨rfl, rfl⟩]
  rw [if_pos h]

/-- C7 witness: the whitespace-only topic `"   "` (and, through
`topicMissing`, the absent and empty cases share the same guard). -/
theorem workflow_endpoint_rejects_missing_topic_witness :
    topicMissing (some "   ") = true
    ∧ handleApiGateway demoOracle "j1" (fun _ => none) "POST" "/api/workflow" (some "   ") =
        ⟨⟨400, .failure "Topic is required"⟩, [], []⟩ :=
  ⟨by decide,
   workflow_endpoint_rejects_missing_topic demoOracle "j1" (fun _ => none) (some "   ")
     (by decide)⟩

/-! ## C8: the "Quantum Computing" example and the doctype guarantee -/

/-- C8: at the failing input — topic "Quantum Computing", all stages
succeeding, the HTML stage returning a body that contains `<!doctype`
somewhere other than the start — the run succeeds with
`metadata.title = "Quantum Computing"` and positive word count, yet
`html.htmlContent` does not begin with `<!DOCTYPE html>`: the guard
checks `includes('<!doctype')` instead of the start of the string, so it
skips the prepend although its own comment says "Ensure the HTML starts
with DOCTYPE". -/
theorem quantum_example_doctype_bug :
    ((run doctypeBugOracle "Quantum Computing" {}).result.toOption.map
      (fun r => r.markdown.metadata.title)) = some "Quantum Computing"
    ∧ ((run doctypeBugOracle "Quantum Computing" {}).result.toOption.map
        (fun r => decide (0 < r.markdown.metadata.wordCount))) = some true
    ∧ ((run doctypeBugOracle "Quantum Computing" {}).result.toOption.map
        (fun r => r.html.map
          (fun h => "<!DOCTYPE html>".data.isPrefixOf h.htmlContent.data))) =
      some (some false) := by
  refine ⟨rfl, rfl, rfl⟩

/-- C8 complement: the positive half of the example holds whenever the
HTML response carries no stray doctype — for `demoOracle` the published
`htmlContent` does begin with `<!DOCTYPE html>` and title and word count
are as the example states. -/
theorem quantum_example_success_case :
    ((run demoOracle "Quantum Computing" {}).result.toOption.map
      (fun r => r.markdown.metadata.title)) = some "Quantum Computing"
    ∧ ((run demoOracle "Quantum Computing" {}).result.toOption.map
        (fun r => decide (0 < r.markdown.metadata.wordCount))) = some true
    ∧ ((run demoOracle "Quantum Computing" {}).result.toOption.map
        (fun r => r.html.map
          (fun h => "<!DOCTYPE html>".data.isPrefixOf h.htmlContent.data))) =
      some (some true) := by
  refine ⟨rfl, rfl, rfl⟩

/-! ## C10: slug shape and idempotence -/

theorem isSlugChar_ne_hyphen {c : Char} (h : isSlugChar c = true) : (c == '-') = false := by
  cases hc : c == '-'
  · rfl
  · have hcc : c = '-' := eq_of_beq hc
    subst hcc
    simp [isSlugChar] at h

theorem hasDoubleHyphen_cons (a : Char) (l : List Char) :
    hasDoubleHyphen (a :: l) =
      ((a == '-' && (l.head? == some '-')) || hasDoubleHyphen l) := by
  cases l with
  | nil => simp [hasDoubleHyphen]
  | cons b rest => simp [hasDoubleHyphen, List.head?]

theorem collapseRuns_all (b : Bool) (l : List Char) :
    ∀ c ∈ collapseRuns b l, isSlugChar c = true ∨ c = '-' := by
  induction l generalizing b with
  | nil => intro c hc; simp [collapseRuns] at hc
  | cons a rest ih =>
    intro c hc
    unfold collapseRuns at hc
    by_cases ha : isSlugChar a
    · rw [if_pos ha] at hc
      rcases List.mem_cons.mp hc with h | h
      · subst h; exact Or.inl ha
      · exact ih false c h
    · rw [if_neg ha] at hc
      by_cases hb : b
      · rw [if_pos hb] at hc; exact ih true c hc
      · rw [if_neg hb] at hc
        rcases List.mem_cons.mp hc with h | h
        · subst h; exact Or.inr rfl
        · exact ih true c h

theorem collapseRuns_true_head (l : List Char) :
    ((collapseRuns true l).head? == some '-') = false := by
  induction l with
  | nil => rfl
  | cons a rest ih =>
    unfold collapseRuns
    by_cases ha : isSlugChar a
    · rw [if_pos ha]
      simp only [List.head?]
      simp [isSlugChar_ne_hyphen ha]
    · rw [if_neg ha, if_pos rfl]
      exact ih

theorem collapseRuns_noDouble (b : Bool) (l : List Char) :
    hasDoubleHyphen (collapseRuns b l) = false := by
  induction l generalizing b with
  | nil => rfl
  | cons a rest ih =>
    unfold collapseRuns
    by_cases ha : isSlugChar a
    · rw [if_pos ha, hasDoubleHyphen_cons]
      rw [ih false]
      simp [isSlugChar_ne_hyphen ha]
    · rw [if_neg ha]
      by_cases hb : b
      · rw [if_pos hb]; exact ih true
      · rw [if_neg hb, hasDoubleHyphen_cons]
        rw [ih true]
        simp [collapseRuns_true_head rest]

theorem head?_dropWhile (q : Char → Bool) (l : List Char) (c : Char)
    (h : (l.dropWhile q).head? = some c) : q c = false := by
  induction l with
  | nil => simp [List.dropWhile] at h
  | cons a rest ih =>
    rw [List.dropWhile_cons] at h
    by_cases ha : q a
    · rw [if_pos ha] at h; exact ih h
    · rw [if_neg ha] at h
      simp only [List.head?, Option.some.injEq] at h
      subst h
      exact Bool.eq_false_iff.mpr ha

theorem getLast?_dropWhile (q : Char → Bool) (l : List Char) :
    l.dropWhile q = [] ∨ (l.dropWhile q).getLast? = l.getLast? := by
  induction l with
  | nil => exact Or.inl rfl
  | cons a rest ih =>
    rw [List.dropWhile_cons]
    by_cases ha : q a
    · rw [if_pos ha]
      cases rest with
      | nil => exact Or.inl rfl
      | cons b r =>
        rcases ih with h | h
        · exact Or.inl h
        · right
          rw [h, List.getLast?_cons_cons]
    · rw [if_neg ha]
      exact Or.inr rfl

theorem hasDoubleHyphen_dropWhile (q : Char → Bool) (l : List Char)
    (h : hasDoubleHyphen l = false) : hasDoubleHyphen (l.dropWhile q) = false := by
  induction l with
  | nil => exact h
  | cons a rest ih =>
    rw [List.dropWhile_cons]
    by_cases ha : q a
    · rw [if_pos ha]
      rw [hasDoubleHyphen_cons] at h
      exact ih (by
        cases hrest : hasDoubleHyphen rest
        · rfl
        · rw [hrest] at h; simp at h)
    · rw [if_neg ha]
      exact h

theorem hasDoubleHyphen_iff_pair (l : List Char) :
    hasDoubleHyphen l = true ↔ ['-', '-'] <:+: l := by
  induction l with
  | nil =>
    constructor
    · intro h; cases h
    · intro h
      have := h.length_le
      simp at this
  | cons a rest ih =>
    rw [hasDoubleHyphen_cons, List.infix_cons_iff]
    constructor
    · intro h
      rcases Bool.or_eq_true_iff.mp h with h1 | h1
      · left
        have ha : a = '-' := by
          have := (Bool.and_eq_true_iff.mp h1).1
          exact eq_of_beq this
        have hhd : rest.head? = some '-' := by
          have := (Bool.and_eq_true_iff.mp h1).2
          exact eq_of_beq this
        cases rest with
        | nil => simp at hhd
        | cons b r =>
          simp only [List.head?, Option.some.injEq] at hhd
          subst ha
          subst hhd
          rw [List.cons_prefix_cons, List.cons_prefix_cons]
          exact ⟨rfl, rfl, List.nil_prefix⟩
      · right; exact ih.mp h1
    · intro h
      rcases h with h | h
      · cases rest with
        | nil =>
          have := h.length_le
          simp at this
        | cons b r =>
          rw [List.cons_prefix_cons, List.cons_prefix_cons] at h
          obtain ⟨ha, hb, -⟩ := h
          subst ha; subst hb
          simp
      · rw [Bool.or_eq_true_iff]
        right
        exact ih.mpr h

theorem hasDoubleHyphen_reverse (l : List Char) :
    hasDoubleHyphen l.reverse = hasDoubleHyphen l := by
  cases h : hasDoubleHyphen l
  · cases hr : hasDoubleHyphen l.reverse
    · rfl
    · exfalso
      have hinf := (hasDoubleHyphen_iff_pair l.reverse).mp hr
      have h2 : (['-', '-'] : List Char).reverse <:+: l.reverse := hinf
      have h3 : ['-', '-'] <:+: l := List.reverse_infix.mp h2
      rw [(hasDoubleHyphen_iff_pair l).mpr h3] at h
      cases h
  · have hinf := (hasDoubleHyphen_iff_pair l).mp h
    have h2 : (['-', '-'] : List Char).reverse <:+: l.reverse := List.reverse_infix.mpr hinf
    exact (hasDoubleHyphen_iff_pair l.reverse).mpr h2

theorem beq_some_hyphen (x : Option Char) (c : Char) (h : x = some c) :
    (x == some '-') = (c == '-') := by
  subst h
  rfl

theorem dropEdgeHyphens_head (l : List Char) :
    ((dropEdgeHyphens l).head? == some '-') = false := by
  unfold dropEdgeHyphens
  rw [List.head?_reverse]
  rcases getLast?_dropWhile (· == '-') (l.dropWhile (· == '-')).reverse with h | h
  · rw [h]; rfl
  · rw [h, List.getLast?_reverse]
    cases hh : (l.dropWhile (· == '-')).head? with
    | none => rfl
    | some c =>
      exact head?_dropWhile _ l c hh

theorem dropEdgeHyphens_last (l : List Char) :
    ((dropEdgeHyphens l).getLast? == some '-') = false := by
  unfold dropEdgeHyphens
  rw [List.getLast?_reverse]
  cases hh : ((l.dropWhile (· == '-')).reverse.dropWhile (· == '-')).head? with
  | none => rfl
  | some c =>
    exact head?_dropWhile _ _ c hh

theorem dropEdgeHyphens_subset (l : List Char) :
    ∀ c ∈ dropEdgeHyphens l, c ∈ l := by
  intro c hc
  unfold dropEdgeHyphens at hc
  rw [List.mem_reverse] at hc
  have h1 := (List.dropWhile_sublist (l := (l.dropWhile (· == '-')).reverse)
    (p := (· == '-'))).subset hc
  rw [List.mem_reverse] at h1
  exact (List.dropWhile_sublist (l := l) (p := (· == '-'))).subset h1

theorem dropEdgeHyphens_noDouble (l : List Char) (h : hasDoubleHyphen l = false) :
    hasDoubleHyphen (dropEdgeHyphens l) = false := by
  unfold dropEdgeHyphens
  rw [hasDoubleHyphen_reverse]
  apply hasDoubleHyphen_dropWhile
  rw [hasDoubleHyphen_reverse]
  exact hasDoubleHyphen_dropWhile _ _ h

theorem char_toLower_fixed {c : Char} (h : isSlugChar c = true ∨ c = '-') :
    c.toLower = c := by
  rcases h with h | h
  · have hn : ¬(c.toNat ≥ 65 ∧ c.toNat ≤ 90) := by
      simp [isSlugChar] at h
      omega
    simp only [Char.toLower]
    rw [if_neg hn]
  · subst h
    decide

theorem collapseRuns_fix (l : List Char)
    (hall : ∀ c ∈ l, isSlugChar c = true ∨ c = '-')
    (hnd : hasDoubleHyphen l = false) :
    collapseRuns false l = l
    ∧ ((l.head? == some '-') = false → collapseRuns true l = l) := by
  induction l with
  | nil => exact ⟨rfl, fun _ => rfl⟩
  | cons a rest ih =>
    have ha := hall a (List.mem_cons_self a rest)
    have hallr : ∀ c ∈ rest, isSlugChar c = true ∨ c = '-' :=
      fun c hc => hall c (List.mem_cons_of_mem a hc)
    have hndr : hasDoubleHyphen rest = false := by
      rw [hasDoubleHyphen_cons] at hnd
      cases hr : hasDoubleHyphen rest
      · rfl
      · rw [hr] at hnd; simp at hnd
    obtain ⟨ih1, ih2⟩ := ih hallr hndr
    have hcons1 : collapseRuns false (a :: rest) = a :: rest := by
      unfold collapseRuns
      rcases ha with ha | ha
      · rw [if_pos ha, ih1]
      · subst ha
        rw [if_neg (by decide), if_neg (by simp)]
        have hresthd : (rest.head? == some '-') = false := by
          rw [hasDoubleHyphen_cons] at hnd
          cases hr : (rest.head? == some '-')
          · rfl
          · rw [hr] at hnd; simp at hnd
        rw [ih2 hresthd]
    refine ⟨hcons1, ?_⟩
    intro hhd
    unfold collapseRuns
    rcases ha with ha | ha
    · rw [if_pos ha, ih1]
    · subst ha
      simp at hhd

theorem dropWhile_hyphen_of_head (l : List Char)
    (h : (l.head? == some '-') = false) : l.dropWhile (· == '-') = l := by
  cases l with
  | nil => rfl
  | cons a rest =>
    simp only [List.head?] at h
    rw [List.dropWhile_cons, if_neg]
    intro hc
    rw [beq_some_hyphen (some a) a rfl] at h
    rw [hc] at h
    cases h

theorem dropEdgeHyphens_fix (l : List Char)
    (hh : (l.head? == some '-') = false)
    (hl : (l.getLast? == some '-') = false) : dropEdgeHyphens l = l := by
  unfold dropEdgeHyphens
  rw [dropWhile_hyphen_of_head l hh]
  have : (l.reverse.head? == some '-') = false := by
    rw [List.head?_reverse]
    exact hl
  rw [dropWhile_hyphen_of_head l.reverse this, List.reverse_reverse]

/-- C10: for every input string, `createSlug` yields a string of only
lowercase ASCII letters, digits and hyphens, with no leading or trailing
hyphen and no two consecutive hyphens, and `createSlug` is idempotent. -/
theorem createSlug_shape_and_idempotent (s : String) :
    (createSlug s).data.all (fun c => isSlugChar c || c == '-') = true
    ∧ ((createSlug s).data.head? == some '-') = false
    ∧ ((createSlug s).data.getLast? == some '-') = false
    ∧ hasDoubleHyphen (createSlug s).data = false
    ∧ createSlug (createSlug s) = createSlug s := by
  have hdata : (createSlug s).data =
      dropEdgeHyphens (collapseRuns false (s.data.map Char.toLower)) := rfl
  have hall : ∀ c ∈ (createSlug s).data, isSlugChar c = true ∨ c = '-' := by
    rw [hdata]
    intro c hc
    exact collapseRuns_all false _ c (dropEdgeHyphens_subset _ c hc)
  have hh : ((createSlug s).data.head? == some '-') = false := by
    rw [hdata]; exact dropEdgeHyphens_head _
  have hl : ((createSlug s).data.getLast? == some '-') = false := by
    rw [hdata]; exact dropEdgeHyphens_last _
  have hnd : hasDoubleHyphen (createSlug s).data = false := by
    rw [hdata]
    exact dropEdgeHyphens_noDouble _ (collapseRuns_noDouble false _)
  have hallb : (createSlug s).data.all (fun c => isSlugChar c || c == '-') = true := by
    rw [List.all_eq_true]
    intro c hc
    rcases hall c hc with h | h
    · simp [h]
    · simp [h]
  refine ⟨hallb, hh, hl, hnd, ?_⟩
  have hmap : (createSlug s).data.map Char.toLower = (createSlug s).data := by
    have hfix : ∀ a ∈ (createSlug s).data, Char.toLower a = id a :=
      fun a ha => char_toLower_fixed (hall a ha)
    rw [List.map_congr_left hfix, List.map_id]
  have houter : createSlug (createSlug s) =
      ⟨dropEdgeHyphens (collapseRuns false ((createSlug s).data.map Char.toLower))⟩ := rfl
  rw [houter, hmap, (collapseRuns_fix _ hall hnd).1, dropEdgeHyphens_fix _ hh hl]
